import Mathlib

set_option maxRecDepth 100000

/-!
Verification development for the metric-conversion core of `utils.go`
(package `utils`): the string/number coercion helpers, the formula
evaluator built on the govaluate expression library, and the
percentage/capacity converters over the metrics registry.

Modelling conventions:
* Go `float64` values are modelled as exact fractions (`Frac`) together
  with an explicit IEEE-754 binary64 round-to-nearest-even operation
  (`roundNearestDouble`) applied after every arithmetic step, mirroring
  the double-precision rounding the Go code performs.  The model covers
  finite doubles; infinities, NaNs, subnormals and overflow are outside
  the fragment the registry formulas exercise, and division by zero is
  guarded explicitly.
* Go `uint64` values are modelled as `Nat`; the conversion
  `float64(x)` is `uintToFloat`, which rounds to the nearest double.
* A Go function returning `(value..., error)` is modelled as returning
  the full tuple, with `Option GoErr` in the error slot; a Go runtime
  panic is the distinguished outcome `GoResult.panicked`.
* All recursion is structural (fuel-based where the Go code loops on
  strings), so every definition evaluates inside the kernel.
-/

/-! ### Exact fraction arithmetic (the ambient numeric model) -/

/-- Euclid's algorithm with explicit structural fuel; `gcdFuel (a+1) a b`
computes `gcd a b`. -/
def gcdFuel : Nat → Nat → Nat → Nat
  | 0, _, b => b
  | _ + 1, 0, b => b
  | fuel + 1, a + 1, b => gcdFuel fuel (b % (a + 1)) (a + 1)

/-- Greatest common divisor via `gcdFuel` (kernel-computable). -/
def natGcd (a b : Nat) : Nat := gcdFuel (a + 1) a b

/-- A rational number as a fraction; values built by `Frac.mk2` are in
lowest terms with positive denominator. -/
structure Frac where
  num : Int
  den : Nat
deriving DecidableEq

instance (n : Nat) : OfNat Frac n := ⟨⟨Int.ofNat n, 1⟩⟩

/-- Embed an integer. -/
def Frac.ofInt (n : Int) : Frac := ⟨n, 1⟩

/-- Normalizing constructor: sign moved to the numerator, fraction
reduced.  A zero denominator (never produced by guarded call sites)
collapses to `0`. -/
def Frac.mk2 (n d : Int) : Frac :=
  if d = 0 then ⟨0, 1⟩
  else
    let n2 : Int := if d < 0 then -n else n
    let dn : Nat := d.natAbs
    let g : Nat := natGcd n2.natAbs dn
    ⟨n2 / (g : Int), dn / g⟩

def Frac.add (x y : Frac) : Frac :=
  Frac.mk2 (x.num * (y.den : Int) + y.num * (x.den : Int)) ((x.den : Int) * (y.den : Int))

def Frac.sub (x y : Frac) : Frac :=
  Frac.mk2 (x.num * (y.den : Int) - y.num * (x.den : Int)) ((x.den : Int) * (y.den : Int))

def Frac.mul (x y : Frac) : Frac :=
  Frac.mk2 (x.num * y.num) ((x.den : Int) * (y.den : Int))

def Frac.div (x y : Frac) : Frac :=
  Frac.mk2 (x.num * (y.den : Int)) ((x.den : Int) * y.num)

def Frac.neg (x : Frac) : Frac := ⟨-x.num, x.den⟩

/-- Absolute value. -/
def Frac.fabs (x : Frac) : Frac := ⟨(x.num.natAbs : Int), x.den⟩

/-- Strict order test (valid on fractions with positive denominator, as
all constructed values have). -/
def Frac.blt (x y : Frac) : Bool := x.num * (y.den : Int) < y.num * (x.den : Int)

/-- Non-strict order test. -/
def Frac.ble (x y : Frac) : Bool := x.num * (y.den : Int) ≤ y.num * (x.den : Int)

/-- Floor to an integer. -/
def Frac.floor (x : Frac) : Int := x.num.fdiv (x.den : Int)

/-! ### The binary64 (Go `float64`) model -/

/-- Binary logarithm with explicit fuel (`natLog2 n = Nat.log2 n`, but
structurally recursive so the kernel evaluates it). -/
def log2Fuel : Nat → Nat → Nat
  | 0, _ => 0
  | fuel + 1, n => if 2 ≤ n then log2Fuel fuel (n / 2) + 1 else 0

def natLog2 (n : Nat) : Nat := log2Fuel n n

/-- `2 ^ k` as a fraction, for `k : Int`. -/
def pow2F (k : Int) : Frac :=
  if 0 ≤ k then ⟨Int.ofNat (2 ^ k.toNat), 1⟩ else ⟨1, 2 ^ (-k).toNat⟩

/-- Round to the nearest integer, ties to even (IEEE default rounding of
an exact scaled significand). -/
def roundTiesEven (q : Frac) : Int :=
  let f := q.floor
  let r := q.sub (Frac.ofInt f)
  if r.num * 2 < (r.den : Int) then f
  else if (r.den : Int) < r.num * 2 then f + 1
  else if f % 2 = 0 then f else f + 1

/-- Round to the nearest integer, ties away from zero (the contract of
Go's `math.Round`). -/
def roundHalfAway (q : Frac) : Int :=
  if q.blt 0 then -(((q.neg).add ⟨1, 2⟩).floor) else ((q.add ⟨1, 2⟩).floor)

/-- `⌊log2 q⌋` for `q > 0` (junk value `0` otherwise).  The estimate
from the bit lengths of numerator and denominator is off by at most one
and is corrected by a single comparison. -/
def floorLog2 (q : Frac) : Int :=
  if q.ble 0 then 0
  else
    let k : Int := (natLog2 q.num.toNat : Int) - (natLog2 q.den : Int)
    if q.blt (pow2F k) then k - 1 else k

/-- Round an exact fraction to the nearest IEEE binary64 value
(round-to-nearest, ties to even), returned as an exact fraction.
Models the rounding step of every Go `float64` operation; finite-range
model (no overflow to infinity, no subnormal flushing). -/
def roundNearestDouble (q : Frac) : Frac :=
  if q.num = 0 then 0
  else
    let s : Int := if q.num < 0 then -1 else 1
    let aq := q.fabs
    let e := floorLog2 aq
    let m : Int := roundTiesEven (aq.mul (pow2F (52 - e)))
    (Frac.ofInt (s * m)).mul (pow2F (e - 52))

/-- `float64` addition: exact sum, then binary64 rounding. -/
def dadd (x y : Frac) : Frac := roundNearestDouble (x.add y)

/-- `float64` subtraction. -/
def dsub (x y : Frac) : Frac := roundNearestDouble (x.sub y)

/-- `float64` multiplication. -/
def dmul (x y : Frac) : Frac := roundNearestDouble (x.mul y)

/-- `float64` division.  Division by zero (which govaluate lets produce
an infinity, a value outside the finite model and outside every formula
the registry exercises) is mapped to `0`. -/
def ddiv (x y : Frac) : Frac :=
  if y.num = 0 then 0 else roundNearestDouble (x.div y)

/-- Go's `float64(u)` conversion of a `uint64`: round to nearest double. -/
def uintToFloat (n : Nat) : Frac := roundNearestDouble ⟨Int.ofNat n, 1⟩

example : dadd ⟨1, 2⟩ ⟨1, 2⟩ = 1 := by decide
example : ddiv 512 1024 = ⟨1, 2⟩ := by decide
example : dmul ⟨1, 2⟩ 100 = 50 := by decide
example : uintToFloat (2 ^ 63 + 1) = Frac.ofInt (2 ^ 63) := by decide
example : roundNearestDouble ⟨1, 200⟩ = ⟨5764607523034235, 1152921504606846976⟩ := by decide

/-! ### Go string primitives -/

/-- Decimal digits to a natural number (accumulator form). -/
def digitsToNat : List Char → Nat → Nat
  | [], acc => acc
  | c :: cs, acc => digitsToNat cs (acc * 10 + (c.toNat - '0'.toNat))

/-- Core of `strings.ReplaceAll`: leftmost, non-overlapping replacement
of `pat` by `rep`, with structural fuel (one unit per character
consumed from `s`; `fuel = s.length + 1` always suffices). -/
def replaceCore (fuel : Nat) (s pat rep : List Char) : List Char :=
  match fuel, s with
  | 0, s => s
  | _ + 1, [] => []
  | fuel + 1, c :: cs =>
    if pat.isPrefixOf (c :: cs) then
      rep ++ replaceCore fuel (List.drop pat.length (c :: cs)) pat rep
    else
      c :: replaceCore fuel cs pat rep

/-- Model of Go `strings.ReplaceAll` (for the non-empty patterns the
code uses). -/
def goReplaceAll (s pat rep : String) : String :=
  ⟨replaceCore (s.data.length + 1) s.data pat.data rep.data⟩

/-- Substring occurrence test, used to state that substitution is
unconditional. -/
def hasSubstr : List Char → List Char → Bool
  | [], pat => pat.isPrefixOf ([] : List Char)
  | c :: cs, pat => pat.isPrefixOf (c :: cs) || hasSubstr cs pat

/-- Model of Go `strconv.FormatFloat(v, 'f', 2, 64)` on a (finite)
double `v`: the exact value rounded to two decimal digits, ties to
even, printed with exactly two fractional digits. -/
def formatFloat2 (v : Frac) : String :=
  let m : Nat := (roundTiesEven ((v.fabs).mul 100)).toNat
  (if v.blt 0 then "-" else "")
    ++ Nat.repr (m / 100) ++ "."
    ++ (if m % 100 < 10 then "0" else "") ++ Nat.repr (m % 100)

example : formatFloat2 1 = "1.00" := by decide
example : formatFloat2 (uintToFloat 512) = "512.00" := by decide
example : formatFloat2 ⟨1, 8⟩ = "0.12" := by decide
example : formatFloat2 (Frac.ofInt (-5)) = "-5.00" := by decide
example : goReplaceAll "(#VALUE/#TOTAL_VALUE)*100" "#VALUE" "512.00" = "(512.00/#TOTAL_VALUE)*100" := by decide

/-! ### Go `strconv` parsing models -/

/-- Model of `strconv.ParseUint(s, 10, 64)` with the error discarded,
exactly as the Go call sites do: `0` on a syntax error, the saturated
maximum `2^64 - 1` on range overflow. -/
def goParseUint64 (s : String) : Nat :=
  let cs := s.data
  if cs = [] then 0
  else if cs.all Char.isDigit then
    let v := digitsToNat cs 0
    if v < 2 ^ 64 then v else 2 ^ 64 - 1
  else 0

/-- Model of `strconv.Atoi` (= `ParseInt(s, 10, 64)` on a 64-bit host)
with the error discarded: optional sign, decimal digits; `0` on a
syntax error, saturation at the `int64` bounds on range overflow. -/
def goParseInt64 (s : String) : Int :=
  let (neg, ds) :=
    match s.data with
    | '+' :: rest => (false, rest)
    | '-' :: rest => (true, rest)
    | cs => (false, cs)
  if ds = [] then 0
  else if ds.all Char.isDigit then
    let v := digitsToNat ds 0
    if neg then (if v ≤ 2 ^ 63 then -(v : Int) else -(2 ^ 63 : Int))
    else (if v < 2 ^ 63 then (v : Int) else (2 ^ 63 - 1 : Int))
  else 0

/-- Exact decimal value of a float literal: optional sign, digits with
at most one point, optional decimal exponent.  `none` on a syntax
error.  (Go's `ParseFloat` additionally accepts hexadecimal floats,
`inf`/`nan` spellings and digit-separating underscores; none of those
reach this code and they are outside the model.) -/
def parseFloatExact (cs : List Char) : Option Frac :=
  let (sgn, cs1) :=
    match cs with
    | '+' :: r => ((1 : Int), r)
    | '-' :: r => ((-1 : Int), r)
    | r => ((1 : Int), r)
  let ip := cs1.takeWhile Char.isDigit
  let cs2 := cs1.dropWhile Char.isDigit
  let (fp, cs3) :=
    match cs2 with
    | '.' :: r => (r.takeWhile Char.isDigit, r.dropWhile Char.isDigit)
    | r => (([] : List Char), r)
  if ip = [] ∧ fp = [] then none
  else
    let mant : Frac := Frac.mk2 (sgn * (digitsToNat (ip ++ fp) 0 : Int)) (Int.ofNat (10 ^ fp.length))
    match cs3 with
    | [] => some mant
    | 'e' :: r =>
      let (esgn, r2) :=
        match r with
        | '+' :: rr => ((1 : Int), rr)
        | '-' :: rr => ((-1 : Int), rr)
        | rr => ((1 : Int), rr)
      if r2 ≠ [] ∧ r2.all Char.isDigit then
        let ex := digitsToNat r2 0
        some (if esgn < 0 then mant.mul ⟨1, 10 ^ ex⟩ else mant.mul ⟨Int.ofNat (10 ^ ex), 1⟩)
      else none
    | 'E' :: r =>
      let (esgn, r2) :=
        match r with
        | '+' :: rr => ((1 : Int), rr)
        | '-' :: rr => ((-1 : Int), rr)
        | rr => ((1 : Int), rr)
      if r2 ≠ [] ∧ r2.all Char.isDigit then
        let ex := digitsToNat r2 0
        some (if esgn < 0 then mant.mul ⟨1, 10 ^ ex⟩ else mant.mul ⟨Int.ofNat (10 ^ ex), 1⟩)
      else none
    | _ => none

/-- Model of `strconv.ParseFloat(s, 64)` with the error discarded:
the literal's exact value rounded to the nearest double, `0` on a
syntax error. -/
def goParseFloat64 (s : String) : Frac :=
  match parseFloatExact s.data with
  | some q => roundNearestDouble q
  | none => 0

example : goParseUint64 "123" = 123 := by decide
example : goParseUint64 "" = 0 := by decide
example : goParseInt64 "-42" = -42 := by decide
example : goParseFloat64 "3.14" = roundNearestDouble ⟨157, 50⟩ := by decide
example : goParseFloat64 "512.00" = 512 := by decide
example : goParseFloat64 "2e2" = 200 := by decide

/-! ### Error and result model -/

/-- Error values surfaced by this core.  `parseError` stands for the
expression-construction errors of `govaluate.NewEvaluableExpression`
(malformed or empty expression), `noParameter` for evaluation with an
unresolved token under a `nil` parameter map, `typeMismatch` for an
operator applied to operands of the wrong type, and `configNotFound`
for the missing-registry-entry error of the percentage converter. -/
inductive GoErr where
  | parseError
  | noParameter (name : String)
  | typeMismatch
  | configNotFound (metric : String)
deriving DecidableEq

/-- Outcome of a Go call: either its full return tuple (errors travel
inside the tuple, as in Go), or a runtime panic. -/
inductive GoResult (α : Type) where
  | ok (val : α)
  | panicked
deriving DecidableEq

/-! ### The govaluate expression model

Modelled from the govaluate library's documented expression language,
restricted to the fragment numeric formulas can reach: float literals,
identifiers, parentheses, unary `-`/`!`, arithmetic `+ - * /`,
comparisons `< > <= >= == !=`, and logical `&& ||`.  Strings, dates,
bitwise and ternary operators are outside the model. -/

inductive GvToken where
  | num (v : Frac)
  | ident (s : String)
  | plus | minus | star | slash | lparen | rparen
  | ltT | gtT | leT | geT | eqT | neT
  | andT | orT | bangT
deriving DecidableEq

/-- Longest prefix of digits and points, as govaluate's lexer consumes
a numeric literal. -/
def takeNumChars : List Char → (List Char × List Char)
  | [] => ([], [])
  | c :: cs =>
    if c.isDigit || c = '.' then
      let (a, b) := takeNumChars cs
      (c :: a, b)
    else ([], c :: cs)

/-- Longest prefix of identifier characters. -/
def takeIdentChars : List Char → (List Char × List Char)
  | [] => ([], [])
  | c :: cs =>
    if c.isAlpha || c.isDigit || c = '_' then
      let (a, b) := takeIdentChars cs
      (c :: a, b)
    else ([], c :: cs)

/-- Value of a numeric literal made of digits and at most one point:
the exact decimal rounded to the nearest double (govaluate stores all
numbers as `float64` via `strconv.ParseFloat`). -/
def lexNumValue (ds : List Char) : Option Frac :=
  let ip := ds.takeWhile Char.isDigit
  let rest := ds.dropWhile Char.isDigit
  match rest with
  | [] => if ip = [] then none else some (roundNearestDouble ⟨Int.ofNat (digitsToNat ip 0), 1⟩)
  | '.' :: fp =>
    if fp.all Char.isDigit ∧ (ip ≠ [] ∨ fp ≠ []) then
      some (roundNearestDouble
        (Frac.mk2 (Int.ofNat (digitsToNat (ip ++ fp) 0)) (Int.ofNat (10 ^ fp.length))))
    else none
  | _ => none

/-- The govaluate lexer (structural fuel: one unit per step, each step
consumes at least one character, so `fuel = s.length + 1` suffices). -/
def lexGv : Nat → List Char → Except GoErr (List GvToken)
  | 0, _ => .error .parseError
  | _ + 1, [] => .ok []
  | fuel + 1, c :: cs =>
    if c = ' ' ∨ c = '\t' then lexGv fuel cs
    else if c.isDigit then
      let (ds, rest) := takeNumChars (c :: cs)
      match lexNumValue ds with
      | some v => (lexGv fuel rest).map (fun ts => .num v :: ts)
      | none => .error .parseError
    else if c.isAlpha ∨ c = '_' then
      let (is, rest) := takeIdentChars (c :: cs)
      (lexGv fuel rest).map (fun ts => .ident ⟨is⟩ :: ts)
    else
      match c, cs with
      | '&', '&' :: rest => (lexGv fuel rest).map (fun ts => .andT :: ts)
      | '|', '|' :: rest => (lexGv fuel rest).map (fun ts => .orT :: ts)
      | '=', '=' :: rest => (lexGv fuel rest).map (fun ts => .eqT :: ts)
      | '!', '=' :: rest => (lexGv fuel rest).map (fun ts => .neT :: ts)
      | '<', '=' :: rest => (lexGv fuel rest).map (fun ts => .leT :: ts)
      | '>', '=' :: rest => (lexGv fuel rest).map (fun ts => .geT :: ts)
      | '+', rest => (lexGv fuel rest).map (fun ts => .plus :: ts)
      | '-', rest => (lexGv fuel rest).map (fun ts => .minus :: ts)
      | '*', rest => (lexGv fuel rest).map (fun ts => .star :: ts)
      | '/', rest => (lexGv fuel rest).map (fun ts => .slash :: ts)
      | '(', rest => (lexGv fuel rest).map (fun ts => .lparen :: ts)
      | ')', rest => (lexGv fuel rest).map (fun ts => .rparen :: ts)
      | '<', rest => (lexGv fuel rest).map (fun ts => .ltT :: ts)
      | '>', rest => (lexGv fuel rest).map (fun ts => .gtT :: ts)
      | '!', rest => (lexGv fuel rest).map (fun ts => .bangT :: ts)
      | _, _ => .error .parseError

/-- Abstract syntax of the modelled govaluate fragment. -/
inductive GvExpr where
  | num (v : Frac)
  | var (s : String)
  | addE (a b : GvExpr) | subE (a b : GvExpr) | mulE (a b : GvExpr) | divE (a b : GvExpr)
  | ltE (a b : GvExpr) | gtE (a b : GvExpr) | leE (a b : GvExpr) | geE (a b : GvExpr)
  | eqE (a b : GvExpr) | neE (a b : GvExpr)
  | andE (a b : GvExpr) | orE (a b : GvExpr)
  | negE (a : GvExpr) | notE (a : GvExpr)
deriving DecidableEq

/-- Parser modes: one descent level per precedence tier, plus the
left-associative continuation of each binary tier (carrying the parsed
left operand). -/
inductive PMode where
  | orL | andL | cmpL | addL | mulL | unaryL
  | orR (l : GvExpr) | andR (l : GvExpr) | cmpR (l : GvExpr)
  | addR (l : GvExpr) | mulR (l : GvExpr)

/-- Recursive-descent parser over the token list (structural fuel). -/
def parseGv : Nat → PMode → List GvToken → Except GoErr (GvExpr × List GvToken)
  | 0, _, _ => .error .parseError
  | fuel + 1, mode, ts =>
    match mode with
    | .unaryL =>
      match ts with
      | .minus :: rest => (parseGv fuel .unaryL rest).map (fun (e, r) => (.negE e, r))
      | .bangT :: rest => (parseGv fuel .unaryL rest).map (fun (e, r) => (.notE e, r))
      | .num v :: rest => .ok (.num v, rest)
      | .ident s :: rest => .ok (.var s, rest)
      | .lparen :: rest =>
        match parseGv fuel .orL rest with
        | .error e => .error e
        | .ok (e, r) =>
          match r with
          | .rparen :: r2 => .ok (e, r2)
          | _ => .error .parseError
      | _ => .error .parseError
    | .mulL =>
      match parseGv fuel .unaryL ts with
      | .error e => .error e
      | .ok (l, r) => parseGv fuel (.mulR l) r
    | .mulR l =>
      match ts with
      | .star :: rest =>
        match parseGv fuel .unaryL rest with
        | .error e => .error e
        | .ok (x, r) => parseGv fuel (.mulR (.mulE l x)) r
      | .slash :: rest =>
        match parseGv fuel .unaryL rest with
        | .error e => .error e
        | .ok (x, r) => parseGv fuel (.mulR (.divE l x)) r
      | _ => .ok (l, ts)
    | .addL =>
      match parseGv fuel .mulL ts with
      | .error e => .error e
      | .ok (l, r) => parseGv fuel (.addR l) r
    | .addR l =>
      match ts with
      | .plus :: rest =>
        match parseGv fuel .mulL rest with
        | .error e => .error e
        | .ok (x, r) => parseGv fuel (.addR (.addE l x)) r
      | .minus :: rest =>
        match parseGv fuel .mulL rest with
        | .error e => .error e
        | .ok (x, r) => parseGv fuel (.addR (.subE l x)) r
      | _ => .ok (l, ts)
    | .cmpL =>
      match parseGv fuel .addL ts with
      | .error e => .error e
      | .ok (l, r) => parseGv fuel (.cmpR l) r
    | .cmpR l =>
      match ts with
      | .ltT :: rest =>
        match parseGv fuel .addL rest with
        | .error e => .error e
        | .ok (x, r) => parseGv fuel (.cmpR (.ltE l x)) r
      | .gtT :: rest =>
        match parseGv fuel .addL rest with
        | .error e => .error e
        | .ok (x, r) => parseGv fuel (.cmpR (.gtE l x)) r
      | .leT :: rest =>
        match parseGv fuel .addL rest with
        | .error e => .error e
        | .ok (x, r) => parseGv fuel (.cmpR (.leE l x)) r
      | .geT :: rest =>
        match parseGv fuel .addL rest with
        | .error e => .error e
        | .ok (x, r) => parseGv fuel (.cmpR (.geE l x)) r
      | .eqT :: rest =>
        match parseGv fuel .addL rest with
        | .error e => .error e
        | .ok (x, r) => parseGv fuel (.cmpR (.eqE l x)) r
      | .neT :: rest =>
        match parseGv fuel .addL rest with
        | .error e => .error e
        | .ok (x, r) => parseGv fuel (.cmpR (.neE l x)) r
      | _ => .ok (l, ts)
    | .andL =>
      match parseGv fuel .cmpL ts with
      | .error e => .error e
      | .ok (l, r) => parseGv fuel (.andR l) r
    | .andR l =>
      match ts with
      | .andT :: rest =>
        match parseGv fuel .cmpL rest with
        | .error e => .error e
        | .ok (x, r) => parseGv fuel (.andR (.andE l x)) r
      | _ => .ok (l, ts)
    | .orL =>
      match parseGv fuel .andL ts with
      | .error e => .error e
      | .ok (l, r) => parseGv fuel (.orR l) r
    | .orR l =>
      match ts with
      | .orT :: rest =>
        match parseGv fuel .andL rest with
        | .error e => .error e
        | .ok (x, r) => parseGv fuel (.orR (.orE l x)) r
      | _ => .ok (l, ts)

/-- Model of `govaluate.NewEvaluableExpression`: lex, parse, and demand
that the whole token stream is consumed. -/
def goParseExpression (s : String) : Except GoErr GvExpr :=
  match lexGv (s.data.length + 1) s.data with
  | .error e => .error e
  | .ok ts =>
    match parseGv (8 * (ts.length + 1)) .orL ts with
    | .error e => .error e
    | .ok (e, []) => .ok e
    | .ok (_, _ :: _) => .error .parseError

/-- A govaluate runtime value in the modelled fragment. -/
inductive GvValue where
  | num (v : Frac)
  | bool (b : Bool)
deriving DecidableEq

/-- Model of `expr.Evaluate(nil)`: identifiers are unresolved (there is
no parameter map), arithmetic is `float64` arithmetic, comparisons
yield booleans. -/
def evalGv : GvExpr → Except GoErr GvValue
  | .num v => .ok (.num v)
  | .var s => .error (.noParameter s)
  | .negE a =>
    match evalGv a with
    | .error e => .error e
    | .ok (.num x) => .ok (.num x.neg)
    | .ok _ => .error .typeMismatch
  | .notE a =>
    match evalGv a with
    | .error e => .error e
    | .ok (.bool b) => .ok (.bool (!b))
    | .ok _ => .error .typeMismatch
  | .addE a b =>
    match evalGv a, evalGv b with
    | .error e, _ => .error e
    | .ok _, .error e => .error e
    | .ok (.num x), .ok (.num y) => .ok (.num (dadd x y))
    | .ok _, .ok _ => .error .typeMismatch
  | .subE a b =>
    match evalGv a, evalGv b with
    | .error e, _ => .error e
    | .ok _, .error e => .error e
    | .ok (.num x), .ok (.num y) => .ok (.num (dsub x y))
    | .ok _, .ok _ => .error .typeMismatch
  | .mulE a b =>
    match evalGv a, evalGv b with
    | .error e, _ => .error e
    | .ok _, .error e => .error e
    | .ok (.num x), .ok (.num y) => .ok (.num (dmul x y))
    | .ok _, .ok _ => .error .typeMismatch
  | .divE a b =>
    match evalGv a, evalGv b with
    | .error e, _ => .error e
    | .ok _, .error e => .error e
    | .ok (.num x), .ok (.num y) => .ok (.num (ddiv x y))
    | .ok _, .ok _ => .error .typeMismatch
  | .ltE a b =>
    match evalGv a, evalGv b with
    | .error e, _ => .error e
    | .ok _, .error e => .error e
    | .ok (.num x), .ok (.num y) => .ok (.bool (x.blt y))
    | .ok _, .ok _ => .error .typeMismatch
  | .gtE a b =>
    match evalGv a, evalGv b with
    | .error e, _ => .error e
    | .ok _, .error e => .error e
    | .ok (.num x), .ok (.num y) => .ok (.bool (y.blt x))
    | .ok _, .ok _ => .error .typeMismatch
  | .leE a b =>
    match evalGv a, evalGv b with
    | .error e, _ => .error e
    | .ok _, .error e => .error e
    | .ok (.num x), .ok (.num y) => .ok (.bool (x.ble y))
    | .ok _, .ok _ => .error .typeMismatch
  | .geE a b =>
    match evalGv a, evalGv b with
    | .error e, _ => .error e
    | .ok _, .error e => .error e
    | .ok (.num x), .ok (.num y) => .ok (.bool (y.ble x))
    | .ok _, .ok _ => .error .typeMismatch
  | .eqE a b =>
    match evalGv a, evalGv b with
    | .error e, _ => .error e
    | .ok _, .error e => .error e
    | .ok x, .ok y => .ok (.bool (x = y))
  | .neE a b =>
    match evalGv a, evalGv b with
    | .error e, _ => .error e
    | .ok _, .error e => .error e
    | .ok x, .ok y => .ok (.bool (!(x = y)))
  | .andE a b =>
    match evalGv a, evalGv b with
    | .error e, _ => .error e
    | .ok _, .error e => .error e
    | .ok (.bool x), .ok (.bool y) => .ok (.bool (x && y))
    | .ok _, .ok _ => .error .typeMismatch
  | .orE a b =>
    match evalGv a, evalGv b with
    | .error e, _ => .error e
    | .ok _, .error e => .error e
    | .ok (.bool x), .ok (.bool y) => .ok (.bool (x || y))
    | .ok _, .ok _ => .error .typeMismatch

/-! ### The metrics data model and conversion engine of `utils.go` -/

/-- `MetricsConfig` from `utils.go`: how a metric is converted. -/
structure MetricsConfig where
  shortCode : String
  description : String
  formula : String
deriving DecidableEq

/-- `Metrics` from `utils.go`: a single entry of the registry list. -/
structure Metrics where
  metrics : String
  baseUnit : String
  metricsConfig : MetricsConfig
deriving DecidableEq

/-- `RoundTwo` from `utils.go`: `math.Round(v*100) / 100` in `float64`
arithmetic (round half away from zero at the second decimal). -/
def RoundTwo (v : Frac) : Frac := ddiv (Frac.ofInt (roundHalfAway (dmul v 100))) 100

/-- `evalFormula` from `utils.go`: construct the govaluate expression,
evaluate it with no parameters, and round the result to two decimals.
The Go code casts the result with the unchecked type assertion
`v.(float64)`, which panics when the expression yields a non-float
value; this is `GoResult.panicked`. -/
def evalFormula (exprStr : String) : GoResult (Frac × Option GoErr) :=
  match goParseExpression exprStr with
  | .error e => .ok (0, some e)
  | .ok ast =>
    match evalGv ast with
    | .error e => .ok (0, some e)
    | .ok (.num v) => .ok (RoundTwo v, none)
    | .ok (.bool _) => .panicked

/-- `applyFormula` from `utils.go`: textually substitute `#VALUE` and
`#TOTAL_VALUE` by the operands formatted with two decimal digits, then
evaluate. -/
def applyFormula (formula : String) (value total : Frac) : GoResult (Frac × Option GoErr) :=
  let f1 := goReplaceAll formula "#VALUE" (formatFloat2 value)
  let f2 := goReplaceAll f1 "#TOTAL_VALUE" (formatFloat2 total)
  evalFormula f2

/-- `firstErr` from `utils.go`: the first non-nil error of the list. -/
def firstErr : List (Option GoErr) → Option GoErr
  | [] => none
  | some e :: _ => some e
  | none :: rest => firstErr rest

/-- `ValueConvertPercentage` from `utils.go`: first registry entry with
kind `"CPU"` and base unit `"Percentage"` wins; no entry means a
configuration-not-found error. -/
def ValueConvertPercentage (config : List Metrics) (usedCores totalCores : Frac) :
    GoResult (Frac × Option GoErr) :=
  match config with
  | [] => .ok (0, some (.configNotFound "CPU"))
  | m :: rest =>
    if m.metrics = "CPU" ∧ m.baseUnit = "Percentage" then
      applyFormula m.metricsConfig.formula usedCores totalCores
    else
      ValueConvertPercentage rest usedCores totalCores

/-- `genericMemoryConvert` from `utils.go`: first registry entry whose
kind matches, whose formula is non-empty and whose base unit is not
`"Bytes"` is applied to `(used, total)`, `(total, total)` and
`(free, total)`; with no such entry the byte counts fall through
unchanged (up to the two-decimal rounding) with unit `"Bytes"`. -/
def genericMemoryConvert (config : List Metrics) (metric : String) (used total free : Nat) :
    GoResult (Frac × Frac × Frac × String × Option GoErr) :=
  match config with
  | [] =>
    .ok (RoundTwo (uintToFloat used), RoundTwo (uintToFloat total),
      RoundTwo (uintToFloat free), "Bytes", none)
  | m :: rest =>
    if m.metrics = metric ∧ m.metricsConfig.formula ≠ "" ∧ m.baseUnit ≠ "Bytes" then
      match applyFormula m.metricsConfig.formula (uintToFloat used) (uintToFloat total) with
      | .panicked => .panicked
      | .ok (u, err1) =>
        match applyFormula m.metricsConfig.formula (uintToFloat total) (uintToFloat total) with
        | .panicked => .panicked
        | .ok (t, err2) =>
          match applyFormula m.metricsConfig.formula (uintToFloat free) (uintToFloat total) with
          | .panicked => .panicked
          | .ok (f, err3) =>
            match firstErr [err1, err2, err3] with
            | some e => .ok (0, 0, 0, m.baseUnit, some e)
            | none => .ok (RoundTwo u, RoundTwo t, RoundTwo f, m.baseUnit, none)
    else
      genericMemoryConvert rest metric used total free

/-- `MemoryValueConvert` from `utils.go`. -/
def MemoryValueConvert (config : List Metrics) (used total free : Nat) :
    GoResult (Frac × Frac × Frac × String × Option GoErr) :=
  genericMemoryConvert config "Memory" used total free

/-- `DiskValueConvert` from `utils.go`. -/
def DiskValueConvert (config : List Metrics) (used total free : Nat) :
    GoResult (Frac × Frac × Frac × String × Option GoErr) :=
  genericMemoryConvert config "Disk" used total free

/-- `StringToUint64` from `utils.go`: drop everything from the first
point on, then `strconv.ParseUint` with the error ignored. -/
def StringToUint64 (str : String) : Nat :=
  let str2 : String :=
    if str.data.contains '.' then ⟨str.data.takeWhile (fun c => c != '.')⟩ else str
  goParseUint64 str2

/-- `ConvertStringToInt` from `utils.go`: `strconv.Atoi` with the error
ignored. -/
def ConvertStringToInt (str : String) : Int := goParseInt64 str

/-- `StringToFloat` from `utils.go`: `strconv.ParseFloat` with the
error ignored. -/
def StringToFloat (str : String) : Frac := goParseFloat64 str

example : evalFormula "(512.00/1024.00)*100" = .ok (50, none) := by decide
example : applyFormula "(#VALUE/#TOTAL_VALUE)*100" (uintToFloat 512) (uintToFloat 1024)
    = .ok (50, none) := by decide
example : applyFormula "#VALUE+0.005" 1 1 = .ok (1, none) := by decide
example : applyFormula "#VALUE +" 1 1 = .ok (0, some .parseError) := by decide
example : applyFormula "#VALUE > #TOTAL_VALUE" 1 2 = .panicked := by decide
example : evalFormula "" = .ok (0, some .parseError) := by decide
example : StringToUint64 "123.99" = 123 := by decide
example : StringToUint64 "abc" = 0 := by decide

/-! ### Helper lemmas about substitution and registry scans -/

/-- A pattern that does not occur in `s` is never replaced. -/
theorem replaceCore_of_not_hasSubstr (pat rep : List Char) :
    ∀ (fuel : Nat) (s : List Char), hasSubstr s pat = false →
      replaceCore fuel s pat rep = s := by
  intro fuel
  induction fuel with
  | zero => intro s h; rfl
  | succ n ih =>
    intro s h
    cases s with
    | nil => rfl
    | cons c cs =>
      have h2 : pat.isPrefixOf (c :: cs) = false ∧ hasSubstr cs pat = false := by
        simpa [hasSubstr] using h
      simp [replaceCore, h2.1, ih cs h2.2]

/-- `strings.ReplaceAll` is the identity when the pattern is absent. -/
theorem goReplaceAll_of_not_hasSubstr (s pat rep : String)
    (h : hasSubstr s.data pat.data = false) : goReplaceAll s pat rep = s := by
  unfold goReplaceAll
  rw [replaceCore_of_not_hasSubstr pat.data rep.data _ s.data h]

/-- The percentage scan skips an entry that is not CPU/Percentage. -/
theorem vcp_skip (m : Metrics) (rest : List Metrics) (u t : Frac)
    (h : ¬(m.metrics = "CPU" ∧ m.baseUnit = "Percentage")) :
    ValueConvertPercentage (m :: rest) u t = ValueConvertPercentage rest u t := by
  simp only [ValueConvertPercentage]
  rw [if_neg h]

/-- The percentage scan skips every entry of a prefix that contains no
CPU/Percentage definition. -/
theorem vcp_skipAll (pre rest : List Metrics) (u t : Frac)
    (h : ∀ x ∈ pre, ¬(x.metrics = "CPU" ∧ x.baseUnit = "Percentage")) :
    ValueConvertPercentage (pre ++ rest) u t = ValueConvertPercentage rest u t := by
  induction pre with
  | nil => rfl
  | cons a as ih =>
    rw [List.cons_append, vcp_skip a (as ++ rest) u t (h a (List.mem_cons_self a as))]
    exact ih (fun x hx => h x (List.mem_cons_of_mem a hx))

/-- The percentage converter returns `applyFormula` of the head entry
when it is CPU/Percentage. -/
theorem vcp_hit (m : Metrics) (rest : List Metrics) (u t : Frac)
    (hm : m.metrics = "CPU" ∧ m.baseUnit = "Percentage") :
    ValueConvertPercentage (m :: rest) u t = applyFormula m.metricsConfig.formula u t := by
  simp only [ValueConvertPercentage]
  rw [if_pos hm]

/-- The capacity scan skips an entry failing the kind/formula/unit
filter. -/
theorem gmc_skip (m : Metrics) (rest : List Metrics) (metric : String) (used total free : Nat)
    (h : ¬(m.metrics = metric ∧ m.metricsConfig.formula ≠ "" ∧ m.baseUnit ≠ "Bytes")) :
    genericMemoryConvert (m :: rest) metric used total free
      = genericMemoryConvert rest metric used total free := by
  simp only [genericMemoryConvert]
  rw [if_neg h]

/-- The capacity scan skips every entry of a prefix in which no entry
passes the filter. -/
theorem gmc_skipAll (pre rest : List Metrics) (metric : String) (used total free : Nat)
    (h : ∀ x ∈ pre, ¬(x.metrics = metric ∧ x.metricsConfig.formula ≠ "" ∧ x.baseUnit ≠ "Bytes")) :
    genericMemoryConvert (pre ++ rest) metric used total free
      = genericMemoryConvert rest metric used total free := by
  induction pre with
  | nil => rfl
  | cons a as ih =>
    rw [List.cons_append,
      gmc_skip a (as ++ rest) metric used total free (h a (List.mem_cons_self a as))]
    exact ih (fun x hx => h x (List.mem_cons_of_mem a hx))

/-- `takeWhile (· != ch)` keeps the whole list when `ch` is absent. -/
theorem takeWhile_bne_of_not_contains (ch : Char) (l : List Char)
    (h : l.contains ch = false) : l.takeWhile (fun c => c != ch) = l := by
  induction l with
  | nil => rfl
  | cons c cs ih =>
    have h2 : (ch == c) = false ∧ cs.contains ch = false := by
      simpa [List.contains_cons] using h
    have hne : (c != ch) = true := by
      simp only [bne_iff_ne]
      intro he
      rw [he] at h2
      simp at h2
    simp [List.takeWhile_cons, hne, ih h2.2]

/-! ### Claim theorems -/

/-- C1: whenever the capacity converter finds a matching definition
(first entry passing the kind/formula/unit filter), it applies the
Evaluator three times with that definition's formula on the operand
pairs `(used, total)`, `(total, total)`, `(free, total)`, and on
success returns the three results rounded to two decimals together
with the definition's `baseUnit`; in particular with formula
`"(#VALUE/#TOTAL_VALUE)*100"` and `used = 512`, `total = 1024`,
`free = 512` it returns `(50, 100, 50, <configured unit>)` with no
error. -/
theorem capacity_applies_formula_three_times
    (pre : List Metrics) (m : Metrics) (post : List Metrics)
    (used total free : Nat) (u t f : Frac)
    (hpre : ∀ x ∈ pre,
      ¬(x.metrics = "Memory" ∧ x.metricsConfig.formula ≠ "" ∧ x.baseUnit ≠ "Bytes"))
    (hm : m.metrics = "Memory" ∧ m.metricsConfig.formula ≠ "" ∧ m.baseUnit ≠ "Bytes")
    (h1 : applyFormula m.metricsConfig.formula (uintToFloat used) (uintToFloat total)
      = .ok (u, none))
    (h2 : applyFormula m.metricsConfig.formula (uintToFloat total) (uintToFloat total)
      = .ok (t, none))
    (h3 : applyFormula m.metricsConfig.formula (uintToFloat free) (uintToFloat total)
      = .ok (f, none)) :
    MemoryValueConvert (pre ++ m :: post) used total free
      = .ok (RoundTwo u, RoundTwo t, RoundTwo f, m.baseUnit, none)
    ∧ MemoryValueConvert [⟨"Memory", "GiB", ⟨"", "", "(#VALUE/#TOTAL_VALUE)*100"⟩⟩] 512 1024 512
      = .ok (50, 100, 50, "GiB", none) := by
  constructor
  · unfold MemoryValueConvert
    rw [gmc_skipAll pre (m :: post) "Memory" used total free hpre]
    simp only [genericMemoryConvert]
    rw [if_pos hm]
    simp only [h1, h2, h3]
    rfl
  · decide

/-- Witness for C1 at the proportional-consistency instance of the
spec: registry with one GiB Memory definition carrying the percentage
formula, `used = 512`, `total = 1024`, `free = 512`. -/
theorem capacity_applies_formula_three_times_witness :
    MemoryValueConvert
        ([] ++ ⟨"Memory", "GiB", ⟨"", "", "(#VALUE/#TOTAL_VALUE)*100"⟩⟩ :: [])
        512 1024 512
      = .ok (RoundTwo 50, RoundTwo 100, RoundTwo 50, "GiB", none) :=
  (capacity_applies_formula_three_times []
    ⟨"Memory", "GiB", ⟨"", "", "(#VALUE/#TOTAL_VALUE)*100"⟩⟩ [] 512 1024 512 50 100 50
    (by simp) (by decide) (by decide) (by decide) (by decide)).1

/-- C2: the percentage converter scans the registry in order, uses the
first definition with kind `"CPU"` and base unit `"Percentage"`
(regardless of any later matching definition's content) and returns
the Evaluator's result for that definition's formula on
`(usedCores, totalCores)`; with no such definition it fails with the
configuration-not-found error naming `"CPU"` and there is no numeric
fallback. -/
theorem percentage_first_match
    (pre : List Metrics) (m : Metrics) (post : List Metrics) (u t : Frac)
    (hpre : ∀ x ∈ pre, ¬(x.metrics = "CPU" ∧ x.baseUnit = "Percentage"))
    (hm : m.metrics = "CPU" ∧ m.baseUnit = "Percentage") :
    ValueConvertPercentage (pre ++ m :: post) u t = applyFormula m.metricsConfig.formula u t
    ∧ ∀ (config : List Metrics) (u2 t2 : Frac),
        (∀ x ∈ config, ¬(x.metrics = "CPU" ∧ x.baseUnit = "Percentage")) →
        ValueConvertPercentage config u2 t2 = .ok (0, some (.configNotFound "CPU")) := by
  refine ⟨?_, ?_⟩
  · rw [vcp_skipAll pre (m :: post) u t hpre, vcp_hit m post u t hm]
  · intro config u2 t2 hc
    have h := vcp_skipAll config [] u2 t2 hc
    rw [List.append_nil] at h
    exact h.trans rfl

/-- Witness for C2: a registry holding two CPU/Percentage definitions;
the converter uses the first formula, not the second. -/
theorem percentage_first_match_witness :
    ValueConvertPercentage
        ([] ++ ⟨"CPU", "Percentage", ⟨"", "", "(#VALUE/#TOTAL_VALUE)*100"⟩⟩ ::
          [⟨"CPU", "Percentage", ⟨"", "", "#VALUE*0"⟩⟩]) 1 4
      = applyFormula "(#VALUE/#TOTAL_VALUE)*100" 1 4 :=
  (percentage_first_match [] ⟨"CPU", "Percentage", ⟨"", "", "(#VALUE/#TOTAL_VALUE)*100"⟩⟩
    [⟨"CPU", "Percentage", ⟨"", "", "#VALUE*0"⟩⟩] 1 4 (by simp) (by decide)).1

/-- C3 counterexample: the fallback does not return the byte counts
unchanged for every `uint64` input.  At `used = total = free = 2^63+1`
the `float64` conversion already loses the value (the nearest double is
`2^63`), and even within the exactly-representable range the
two-decimal rounding is not a no-op: `RoundTwo` moves the integral
count `5764607523034261` to `5764607523034260`. -/
theorem capacity_identity_fallback_cex :
    MemoryValueConvert [] (2 ^ 63 + 1) (2 ^ 63 + 1) (2 ^ 63 + 1)
      = .ok (Frac.ofInt (2 ^ 63), Frac.ofInt (2 ^ 63), Frac.ofInt (2 ^ 63), "Bytes", none)
    ∧ Frac.ofInt (2 ^ 63) ≠ Frac.ofInt (2 ^ 63 + 1)
    ∧ RoundTwo (uintToFloat 5764607523034261) = Frac.ofInt 5764607523034260
    ∧ Frac.ofInt 5764607523034260 ≠ Frac.ofInt 5764607523034261 := by decide

/-- C3 (amended): for every registry containing no definition matching
the capacity filter for the requested kind, the capacity converter
returns `float64(used)`, `float64(total)`, `float64(free)` each passed
through the two-decimal rounding (the identity on realistic integral
byte counts, e.g. 512/1024/512, though not on every `uint64`), the
unit label `"Bytes"`, and no error — absence of configuration is never
an error on the capacity path. -/
theorem capacity_identity_fallback
    (config : List Metrics) (metric : String) (used total free : Nat)
    (h : ∀ x ∈ config,
      ¬(x.metrics = metric ∧ x.metricsConfig.formula ≠ "" ∧ x.baseUnit ≠ "Bytes")) :
    genericMemoryConvert config metric used total free
      = .ok (RoundTwo (uintToFloat used), RoundTwo (uintToFloat total),
          RoundTwo (uintToFloat free), "Bytes", none)
    ∧ MemoryValueConvert [⟨"Memory", "Bytes", ⟨"", "", "#VALUE/1048576"⟩⟩] 512 1024 512
      = .ok (512, 1024, 512, "Bytes", none) := by
  constructor
  · have h2 := gmc_skipAll config [] metric used total free h
    rw [List.append_nil] at h2
    exact h2.trans rfl
  · decide

/-- Witness for C3 (amended): a registry whose only entries are a
Disk definition and a Bytes-unit Memory definition leaves Memory
counts untouched. -/
theorem capacity_identity_fallback_witness :
    genericMemoryConvert
        [⟨"Disk", "GiB", ⟨"", "", "#VALUE/1073741824"⟩⟩,
          ⟨"Memory", "Bytes", ⟨"", "", "#VALUE"⟩⟩] "Memory" 512 1024 512
      = .ok (RoundTwo (uintToFloat 512), RoundTwo (uintToFloat 1024),
          RoundTwo (uintToFloat 512), "Bytes", none) :=
  (capacity_identity_fallback
    [⟨"Disk", "GiB", ⟨"", "", "#VALUE/1073741824"⟩⟩,
      ⟨"Memory", "Bytes", ⟨"", "", "#VALUE"⟩⟩] "Memory" 512 1024 512 (by decide)).1

/-- C4: the Evaluator replaces every occurrence of `#VALUE` by the
value formatted with exactly two decimal digits and every occurrence
of `#TOTAL_VALUE` by the total formatted identically, before parsing
the result; substitution is unconditional, so a formula containing
neither token evaluates independently of the operands. -/
theorem evaluator_substitution
    (f : String) (v t v2 t2 : Frac)
    (h1 : hasSubstr f.data ("#VALUE" : String).data = false)
    (h2 : hasSubstr f.data ("#TOTAL_VALUE" : String).data = false) :
    (∀ (g : String) (a b : Frac),
      applyFormula g a b
        = evalFormula (goReplaceAll (goReplaceAll g "#VALUE" (formatFloat2 a))
            "#TOTAL_VALUE" (formatFloat2 b)))
    ∧ applyFormula f v t = applyFormula f v2 t2
    ∧ goReplaceAll "#VALUE+#VALUE*#VALUE" "#VALUE" "2.00" = "2.00+2.00*2.00"
    ∧ formatFloat2 1 = "1.00" ∧ formatFloat2 ⟨1, 2⟩ = "0.50"
    ∧ formatFloat2 (uintToFloat 1024) = "1024.00" := by
  refine ⟨fun g a b => rfl, ?_, by decide, by decide, by decide, by decide⟩
  show evalFormula (goReplaceAll (goReplaceAll f "#VALUE" (formatFloat2 v))
      "#TOTAL_VALUE" (formatFloat2 t))
    = evalFormula (goReplaceAll (goReplaceAll f "#VALUE" (formatFloat2 v2))
        "#TOTAL_VALUE" (formatFloat2 t2))
  rw [goReplaceAll_of_not_hasSubstr f _ _ h1, goReplaceAll_of_not_hasSubstr f _ _ h2,
    goReplaceAll_of_not_hasSubstr f _ _ h1, goReplaceAll_of_not_hasSubstr f _ _ h2]

/-- Witness for C4: the token-free formula `"100"` evaluates the same
at operands `(1, 2)` and `(3, 4)`. -/
theorem evaluator_substitution_witness :
    applyFormula "100" 1 2 = applyFormula "100" 3 4 :=
  (evaluator_substitution "100" 1 2 3 4 (by decide) (by decide)).2.1

/-- C5: the Evaluator's numeric result is rounded once, after
evaluation, to two decimal places, half away from zero, as
`math.Round(v*100)/100`; in particular `"#VALUE+0.005"` at `value = 1`
returns `1`, not `1.01` (the double nearest `1.005` lies below it), and
the half-away direction shows on the exact double `1/8`:
`RoundTwo (1/8)` is the double nearest `0.13`, not `0.12`. -/
theorem evaluator_rounds_after_evaluation
    (s : String) (ast : GvExpr) (v : Frac)
    (hp : goParseExpression s = .ok ast)
    (he : evalGv ast = .ok (.num v)) :
    evalFormula s = .ok (RoundTwo v, none)
    ∧ applyFormula "#VALUE+0.005" 1 1 = .ok (1, none)
    ∧ RoundTwo ⟨1, 8⟩ = roundNearestDouble ⟨13, 100⟩
    ∧ RoundTwo ⟨-1, 8⟩ = roundNearestDouble ⟨-13, 100⟩ := by
  refine ⟨?_, by decide, by decide, by decide⟩
  simp only [evalFormula, hp, he]

/-- Witness for C5 at the percentage formula instance: parsing
`"(512.00/1024.00)*100"` yields the expression tree whose raw value is
`50`, and the returned value is its two-decimal rounding. -/
theorem evaluator_rounds_after_evaluation_witness :
    evalFormula "(512.00/1024.00)*100" = .ok (RoundTwo 50, none) :=
  (evaluator_rounds_after_evaluation "(512.00/1024.00)*100"
    (.mulE (.divE (.num 512) (.num 1024)) (.num 100)) 50
    (by rfl) (by rfl)).1

/-- C6 (code bug): the claim says the Evaluator returns a
`FormulaError` and does not crash whenever the substituted formula is
invalid, has an unresolved token, or evaluates to a non-numeric value.
The first two cases do return errors, but a formula that evaluates to
a boolean makes the Go code panic at the unchecked type assertion
`v.(float64)` instead of returning an error. -/
theorem evaluator_nonnumeric_panics :
    applyFormula "#VALUE > #TOTAL_VALUE" 1 2 = .panicked
    ∧ applyFormula "#VALUE +" 1 1 = .ok (0, some .parseError)
    ∧ applyFormula "#VALUE + x" 1 1 = .ok (0, some (.noParameter "x")) := by decide

/-- C7 counterexample: on an Evaluator failure the capacity converter
does return zero numeric values with the first error, but the unit
slot carries the matched definition's `baseUnit` (here `"GiB"`), not
the zero-value string, so the claim that no non-zero unit label is
returned alongside the error is false. -/
theorem capacity_error_keeps_unit_cex :
    MemoryValueConvert [⟨"Memory", "GiB", ⟨"", "", "("⟩⟩] 1 2 3
      = .ok (0, 0, 0, "GiB", some .parseError)
    ∧ "GiB" ≠ "" := by decide

/-- C7 (amended): when at least one of the three Evaluator calls
fails, the whole capacity call fails with the first error in the order
used → total → free, returning zero numeric values together with the
matched definition's `baseUnit` in the unit slot (not a zero-value
unit label). -/
theorem capacity_error_first_error
    (m : Metrics) (rest : List Metrics) (metric : String) (used total free : Nat)
    (u t f : Frac) (e1 e2 e3 : Option GoErr) (e : GoErr)
    (hm : m.metrics = metric ∧ m.metricsConfig.formula ≠ "" ∧ m.baseUnit ≠ "Bytes")
    (h1 : applyFormula m.metricsConfig.formula (uintToFloat used) (uintToFloat total)
      = .ok (u, e1))
    (h2 : applyFormula m.metricsConfig.formula (uintToFloat total) (uintToFloat total)
      = .ok (t, e2))
    (h3 : applyFormula m.metricsConfig.formula (uintToFloat free) (uintToFloat total)
      = .ok (f, e3))
    (hfe : firstErr [e1, e2, e3] = some e) :
    genericMemoryConvert (m :: rest) metric used total free
      = .ok (0, 0, 0, m.baseUnit, some e)
    ∧ (∀ (a : GoErr) (o2 o3 : Option GoErr), firstErr [some a, o2, o3] = some a)
    ∧ (∀ (b : GoErr) (o3 : Option GoErr), firstErr [none, some b, o3] = some b)
    ∧ (∀ (c : GoErr), firstErr [none, none, some c] = some c) := by
  refine ⟨?_, fun a o2 o3 => rfl, fun b o3 => rfl, fun c => rfl⟩
  simp only [genericMemoryConvert]
  rw [if_pos hm]
  simp only [h1, h2, h3, hfe]

/-- Witness for C7: a Memory definition whose formula `"("` fails to
parse makes the conversion fail with that error, zero values, and the
definition's own unit label. -/
theorem capacity_error_first_error_witness :
    genericMemoryConvert (⟨"Memory", "GiB", ⟨"", "", "("⟩⟩ :: []) "Memory" 1 2 3
      = .ok (0, 0, 0, "GiB", some GoErr.parseError) :=
  (capacity_error_first_error ⟨"Memory", "GiB", ⟨"", "", "("⟩⟩ [] "Memory" 1 2 3
    0 0 0 (some .parseError) (some .parseError) (some .parseError) .parseError
    (by decide) (by decide) (by decide) (by decide) (by decide)).1

/-- C8: the capacity converter selects the first definition in
registry order whose kind matches, whose formula is non-empty, and
whose base unit is not `"Bytes"`; an entry failing any of the three
conditions is skipped and the scan continues, and once an entry
passes, later entries are irrelevant. -/
theorem capacity_filter_first_match
    (pre : List Metrics) (m : Metrics) (post : List Metrics) (metric : String)
    (used total free : Nat)
    (hpre : ∀ x ∈ pre,
      ¬(x.metrics = metric ∧ x.metricsConfig.formula ≠ "" ∧ x.baseUnit ≠ "Bytes"))
    (hm : m.metrics = metric ∧ m.metricsConfig.formula ≠ "" ∧ m.baseUnit ≠ "Bytes") :
    genericMemoryConvert (pre ++ m :: post) metric used total free
      = genericMemoryConvert (m :: post) metric used total free
    ∧ genericMemoryConvert (m :: post) metric used total free
      = genericMemoryConvert [m] metric used total free
    ∧ (∀ (m2 : Metrics) (rest : List Metrics),
        ¬(m2.metrics = metric ∧ m2.metricsConfig.formula ≠ "" ∧ m2.baseUnit ≠ "Bytes") →
        genericMemoryConvert (m2 :: rest) metric used total free
          = genericMemoryConvert rest metric used total free) := by
  refine ⟨gmc_skipAll pre (m :: post) metric used total free hpre, ?_,
    fun m2 rest h => gmc_skip m2 rest metric used total free h⟩
  simp only [genericMemoryConvert]
  rw [if_pos hm, if_pos hm]

/-- Witness for C8: three entries failing exactly one filter condition
each (wrong kind, empty formula, Bytes unit) are skipped before the
matching MiB definition. -/
theorem capacity_filter_first_match_witness :
    genericMemoryConvert
        ([⟨"Disk", "GiB", ⟨"", "", "#VALUE"⟩⟩,
          ⟨"Memory", "GiB", ⟨"", "", ""⟩⟩,
          ⟨"Memory", "Bytes", ⟨"", "", "#VALUE"⟩⟩] ++
          ⟨"Memory", "MiB", ⟨"", "", "#VALUE/1048576"⟩⟩ ::
            [⟨"Memory", "KiB", ⟨"", "", "#VALUE/1024"⟩⟩]) "Memory" 4 8 2
      = genericMemoryConvert
          (⟨"Memory", "MiB", ⟨"", "", "#VALUE/1048576"⟩⟩ ::
            [⟨"Memory", "KiB", ⟨"", "", "#VALUE/1024"⟩⟩]) "Memory" 4 8 2 :=
  (capacity_filter_first_match
    [⟨"Disk", "GiB", ⟨"", "", "#VALUE"⟩⟩, ⟨"Memory", "GiB", ⟨"", "", ""⟩⟩,
      ⟨"Memory", "Bytes", ⟨"", "", "#VALUE"⟩⟩]
    ⟨"Memory", "MiB", ⟨"", "", "#VALUE/1048576"⟩⟩
    [⟨"Memory", "KiB", ⟨"", "", "#VALUE/1024"⟩⟩] "Memory" 4 8 2
    (by decide) (by decide)).1

/-- C9 counterexample: the coercion helpers never surface an error,
but on range overflow `StringToUint64` does not yield the integral
part of the input or zero — `strconv.ParseUint` saturates, and the
discarded-error value is `2^64 - 1`. -/
theorem coercion_best_effort_cex :
    StringToUint64 "18446744073709551616" = 18446744073709551615
    ∧ ¬(StringToUint64 "18446744073709551616" = 0
        ∨ StringToUint64 "18446744073709551616" = 18446744073709551616) := by decide

/-- C9 (amended): the coercion helpers are total and never surface an
error.  `StringToUint64` always returns the digit value of the part
before the first point, zero (on a syntax failure), or the saturated
maximum `2^64 - 1` (on range overflow); `ConvertStringToInt` saturates
at the `int64` bounds and yields zero on any syntax failure (including
a decimal point); `StringToFloat` yields zero on a syntax failure.  In
particular `StringToUint64 "123.99" = 123` and
`StringToUint64 "abc" = 0`. -/
theorem coercion_helpers_total :
    (∀ s : String,
      StringToUint64 s = 0
      ∨ StringToUint64 s = digitsToNat (s.data.takeWhile (fun c => c != '.')) 0
      ∨ StringToUint64 s = 2 ^ 64 - 1)
    ∧ StringToUint64 "123.99" = 123
    ∧ StringToUint64 "abc" = 0
    ∧ ConvertStringToInt "42" = 42
    ∧ ConvertStringToInt "-42" = -42
    ∧ ConvertStringToInt "12.45" = 0
    ∧ ConvertStringToInt "9223372036854775808" = 9223372036854775807
    ∧ StringToFloat "3.14" = roundNearestDouble ⟨157, 50⟩
    ∧ StringToFloat "abc" = 0 := by
  refine ⟨?_, by decide, by decide, by decide, by decide, by decide, by decide,
    by decide, by decide⟩
  intro s
  unfold StringToUint64
  by_cases hc : s.data.contains '.'
  · rw [if_pos hc]
    unfold goParseUint64
    by_cases he : (String.mk (s.data.takeWhile (fun c => c != '.'))).data = []
    · rw [if_pos he]; exact Or.inl rfl
    · rw [if_neg he]
      by_cases hd : (String.mk (s.data.takeWhile (fun c => c != '.'))).data.all Char.isDigit
      · rw [if_pos hd]
        by_cases hv : digitsToNat (String.mk (s.data.takeWhile (fun c => c != '.'))).data 0 < 2 ^ 64
        · rw [if_pos hv]; exact Or.inr (Or.inl rfl)
        · rw [if_neg hv]; exact Or.inr (Or.inr rfl)
      · rw [if_neg hd]; exact Or.inl rfl
  · rw [if_neg hc]
    have ht : s.data.takeWhile (fun c => c != '.') = s.data :=
      takeWhile_bne_of_not_contains '.' s.data (by simpa using hc)
    unfold goParseUint64
    by_cases he : s.data = []
    · rw [if_pos he]; exact Or.inl rfl
    · rw [if_neg he]
      by_cases hd : s.data.all Char.isDigit
      · rw [if_pos hd]
        by_cases hv : digitsToNat s.data 0 < 2 ^ 64
        · rw [if_pos hv]; exact Or.inr (Or.inl (by rw [ht]))
        · rw [if_neg hv]; exact Or.inr (Or.inr rfl)
      · rw [if_neg hd]; exact Or.inl rfl

/-- C10: the percentage lookup, unlike the capacity lookup, does not
require a non-empty formula: a first CPU/Percentage definition with an
empty formula is still selected (the scan does not continue to later
entries), and the result is the Evaluator's parse error for the empty
expression, not the configuration-not-found error; the same
empty-formula entry would be skipped by the capacity scan. -/
theorem percentage_accepts_empty_formula
    (sc ds : String) (rest : List Metrics) (u t : Frac) :
    ValueConvertPercentage (⟨"CPU", "Percentage", ⟨sc, ds, ""⟩⟩ :: rest) u t
      = .ok (0, some .parseError)
    ∧ (∀ name : String, GoErr.parseError ≠ GoErr.configNotFound name)
    ∧ (∀ (u2 t2 f2 : Nat),
        genericMemoryConvert (⟨"Memory", "GiB", ⟨sc, ds, ""⟩⟩ :: rest) "Memory" u2 t2 f2
          = genericMemoryConvert rest "Memory" u2 t2 f2) := by
  refine ⟨?_, ?_, ?_⟩
  · rw [vcp_hit ⟨"CPU", "Percentage", ⟨sc, ds, ""⟩⟩ rest u t ⟨rfl, rfl⟩]
    show evalFormula (goReplaceAll (goReplaceAll "" "#VALUE" (formatFloat2 u))
      "#TOTAL_VALUE" (formatFloat2 t)) = .ok (0, some .parseError)
    rw [goReplaceAll_of_not_hasSubstr "" "#VALUE" (formatFloat2 u) (by decide),
      goReplaceAll_of_not_hasSubstr "" "#TOTAL_VALUE" (formatFloat2 t) (by decide)]
    decide
  · intro name h
    cases h
  · intro u2 t2 f2
    exact gmc_skip ⟨"Memory", "GiB", ⟨sc, ds, ""⟩⟩ rest "Memory" u2 t2 f2
      (fun h => h.2.1 rfl)
